import Mathlib

/-!
# Verification of the skychart chain-registry mirror

A shallow embedding of the Go sources (`server/pull.go`, the `server`
handler file, and `types`), together with theorems settling the frozen
claims about the synchronization pass, the derived indexes, and the
query operations.

Go strings are modelled as Lean `String` values; byte-wise operations
(`strings.Split`, `strings.Contains`, `strings.Compare`) are modelled by
explicit recursion over the underlying character list, which agrees with
Go's byte-wise behaviour on the code-point level.  Go maps are modelled
as association lists (`GoMap`), whose list order stands in for Go's
(unspecified) iteration order.  HTTP responses are modelled as the list
of status-code and body writes a handler performs.
-/

/-! ## Go string primitives -/

/-- `strings.Split(s, sep)` for a single-character separator, on the
character list.  Go's `Split` always returns at least one element. -/
def splitChar (c : Char) : List Char → List (List Char)
  | [] => [[]]
  | a :: as =>
    if a = c then [] :: splitChar c as
    else
      match splitChar c as with
      | [] => [[a]]
      | r :: rs => (a :: r) :: rs

/-- `strings.Split` on `String`, single-character separator. -/
def goSplit (s : String) (c : Char) : List String :=
  (splitChar c s.data).map (fun l => ⟨l⟩)

/-- Is `pre` a leading segment of `l`? (helper for substring search). -/
def startsWithCL : List Char → List Char → Bool
  | [], _ => true
  | _ :: _, [] => false
  | a :: as, b :: bs => a = b && startsWithCL as bs

/-- Does `l` contain `sub` as a contiguous segment? -/
def containsSub (sub : List Char) : List Char → Bool
  | [] => startsWithCL sub []
  | b :: bs => startsWithCL sub (b :: bs) || containsSub sub bs

/-- `strings.Contains(s, sub)`. -/
def goContains (s sub : String) : Bool :=
  containsSub sub.data s.data

/-- Byte-wise lexicographic comparison of character lists, the order
`strings.Compare` uses (UTF-8 byte order agrees with code-point order). -/
def charListCompare : List Char → List Char → Ordering
  | [], [] => Ordering.eq
  | [], _ :: _ => Ordering.lt
  | _ :: _, [] => Ordering.gt
  | a :: as, b :: bs =>
    if a < b then Ordering.lt
    else if b < a then Ordering.gt
    else charListCompare as bs

/-- `strings.Compare(a, b)` on `String`. -/
def strCompare (a b : String) : Ordering :=
  charListCompare a.data b.data

/-- `strconv.FormatBool`. -/
def formatBool (b : Bool) : String :=
  if b then "true" else "false"

/-! ## Go maps as association lists -/

/-- A Go map, modelled as an association list.  List order stands in for
Go's unspecified iteration order. -/
abbrev GoMap (α β : Type) := List (α × β)

/-- Comma-ok map read: `v, ok := m[k]`. -/
def mapFind {α β : Type} [DecidableEq α] (m : GoMap α β) (k : α) : Option β :=
  match m with
  | [] => none
  | (k', v) :: rest => if k' = k then some v else mapFind rest k

/-- Map write `m[k] = v`: replaces an existing binding in place, else
appends a fresh one. -/
def mapInsert {α β : Type} [DecidableEq α] (m : GoMap α β) (k : α) (v : β) : GoMap α β :=
  match m with
  | [] => [(k, v)]
  | (k', v') :: rest => if k' = k then (k, v) :: rest else (k', v') :: mapInsert rest k v

/-! ## The `types` package -/

/-- `types.Path.Chain1` / `Chain2` endpoint record (`part_000`). -/
structure PathEnd where
  chainName : String
  clientID : String
  connectionID : String
deriving DecidableEq

/-- Per-chain half of a channel record. -/
structure ChannelEnd where
  channelID : String
  portID : String
deriving DecidableEq

/-- The `tags` record of a channel: status, preferred, dex, properties. -/
structure ChannelTags where
  status : String
  preferred : Bool
  dex : String
  properties : String
deriving DecidableEq

/-- One channel of a `types.Path`. -/
structure Channel where
  chain1 : ChannelEnd
  chain2 : ChannelEnd
  ordering : String
  version : String
  tags : ChannelTags
deriving DecidableEq

/-- `types.Path`: a bidirectional connectivity descriptor between two
chains (`part_000`). -/
structure types.Path where
  chain1 : PathEnd
  chain2 : PathEnd
  channels : List Channel
deriving DecidableEq

/-- The zero value `types.Path\x7b\x7d`. -/
def types.Path.empty : types.Path :=
  ⟨⟨"", "", ""⟩, ⟨"", "", ""⟩, []⟩

/-- Modelled from the spec: the `types.Chain` API endpoint groups
(RPC, gRPC, REST, each a list of URLs); the `types` file defining
`Chain` is not under `src/`. -/
structure Apis where
  rpc : List String
  grpc : List String
  rest : List String
deriving DecidableEq

/-- Modelled from the spec: the `types.Chain` peer lists. -/
structure Peers where
  persistentPeers : List String
  seeds : List String
deriving DecidableEq

/-- Modelled from the spec: `types.Chain` — stable chain identifier,
human name, API endpoint groups, peer lists; the defining `types` file
is not under `src/`, only its users are. -/
structure Chain where
  chainID : String
  chainName : String
  apis : Apis
  peers : Peers
deriving DecidableEq

/-- The zero value `types.Chain\x7b\x7d`. -/
def Chain.empty : Chain :=
  ⟨"", "", ⟨[], [], []⟩, ⟨[], []⟩⟩

/-- Modelled from the spec: an `types.AssetList` asset record, carrying
the display name the index builder keys on; the defining `types` file is
not under `src/`. -/
structure Asset where
  display : String
deriving DecidableEq

/-- Modelled from the spec: `types.AssetList` — owning chain identifier
and the ordered asset records; the defining `types` file is not under
`src/`. -/
structure AssetList where
  chainID : String
  assets : List Asset
deriving DecidableEq

/-- The zero value `types.AssetList\x7b\x7d`. -/
def AssetList.empty : AssetList :=
  ⟨"", []⟩

/-! ## The Handler state -/

/-- The tag index `pathsByTag`: dimension → value → paths. -/
abbrev TagMap := GoMap String (GoMap String (List types.Path))

/-- `server.Handler`: the in-memory registry state.  The `log` field is
dropped (pure logging); `lastUpdated` is an abstract tick count. -/
structure Handler where
  registryUrl : String
  lastUpdated : Nat
  chains : List String
  assets : List String
  paths : List String
  chainByAsset : GoMap String String
  chainById : GoMap String String
  pathsByTag : TagMap
  chainList : GoMap String Chain
  assetList : GoMap String AssetList
  pathList : GoMap String types.Path
deriving DecidableEq

/-- `server.NewHandler`: fresh state with the four tag dimensions
seeded in the index. -/
def NewHandler (registryUrl : String) : Handler where
  registryUrl := registryUrl
  lastUpdated := 0
  chains := []
  assets := []
  paths := []
  chainByAsset := []
  chainById := []
  pathsByTag := [("dex", []), ("preferred", []), ("properties", []), ("status", [])]
  chainList := []
  assetList := []
  pathList := []

/-! ## HTTP responses

A handler's effect on its `http.ResponseWriter` is modelled as the list
of status-code and body writes it performs, in order (header writes are
dropped).  A handler that would panic returns `none`. -/

/-- A JSON-serializable response body. -/
inductive Payload where
  | chain (c : Chain)
  | assetListBody (a : AssetList)
  | pathBody (p : types.Path)
  | paths (ps : List types.Path)
  | strings (ss : List String)
deriving DecidableEq

/-- One write against the response writer. -/
inductive RespEvent where
  | status (code : Nat)
  | body (p : Payload)
deriving DecidableEq

/-- `respondWithJSON`: writes 200 then the marshalled payload. -/
def respondWithJSON (p : Payload) : List RespEvent :=
  [RespEvent.status 200, RespEvent.body p]

/-- `resourceNotFound`: writes 404. -/
def resourceNotFound : List RespEvent :=
  [RespEvent.status 404]

/-- `badRequest`: writes 400. -/
def badRequest : List RespEvent :=
  [RespEvent.status 400]

/-! ## Query-side functions -/

/-- `Handler.getPathName`: canonical path name, lexicographically
smaller chain name first. -/
def getPathName (chain1Name chain2Name : String) : String :=
  if strCompare chain1Name chain2Name = Ordering.gt then
    chain2Name ++ "-" ++ chain1Name
  else
    chain1Name ++ "-" ++ chain2Name

/-- `Handler.findChain`: try the key as a chain name in `chainList`,
then as a chain id via `chainById` (a miss on the final `chainList`
read yields the zero `Chain`, as in Go). -/
def findChain (h : Handler) (name : String) : Bool × Chain :=
  match mapFind h.chainList name with
  | some chain => (true, chain)
  | none =>
    match mapFind h.chainById name with
    | none => (false, Chain.empty)
    | some name' => (true, (mapFind h.chainList name').getD Chain.empty)

/-- `Handler.findPath`. -/
def findPath (h : Handler) (name : String) : Bool × types.Path :=
  match mapFind h.pathList name with
  | none => (false, types.Path.empty)
  | some path => (true, path)

/-- `Handler.Chain` (HTTP): resolve by name then id, 404 on neither. -/
def Handler.chainEndpoint (h : Handler) (chainVar : Option String) : List RespEvent :=
  match chainVar with
  | none => badRequest
  | some chainName =>
    match findChain h chainName with
    | (false, _) => resourceNotFound
    | (true, chain) => respondWithJSON (Payload.chain chain)

/-- `Handler.ChainAsset` (HTTP).  Faithful to the source: on a key that
is neither an asset-list key nor a chain id, `badRequest` is written but
the function does not return, so the zero-valued lookup and the JSON
response still happen (the failed comma-ok assignment zeroes the key). -/
def Handler.ChainAsset (h : Handler) (chainVar : Option String) : List RespEvent :=
  match chainVar with
  | none => badRequest
  | some chainName =>
    match mapFind h.assetList chainName with
    | some assets => respondWithJSON (Payload.assetListBody assets)
    | none =>
      match mapFind h.chainById chainName with
      | some name2 =>
          respondWithJSON (Payload.assetListBody ((mapFind h.assetList name2).getD AssetList.empty))
      | none =>
          badRequest ++
            respondWithJSON (Payload.assetListBody ((mapFind h.assetList "").getD AssetList.empty))

/-- All paths in map-iteration order, as built by `Handler.Paths`'s loop
over `pathList`. -/
def allPaths (h : Handler) : List types.Path :=
  h.pathList.map (fun kv => kv.2)

/-- `Handler.Paths` (HTTP): every stored path. -/
def Handler.pathsEndpoint (h : Handler) : List RespEvent :=
  respondWithJSON (Payload.paths (allPaths h))

/-- `Handler.getPathsWithTag`.  `none` models the Go `panic` on a tag
dimension absent from `pathsByTag`. -/
def getPathsWithTag (h : Handler) (tag value : String) : Option (List types.Path) :=
  if value = "" then
    some (allPaths h)
  else
    match mapFind h.pathsByTag tag with
    | none => none
    | some byTag =>
      match mapFind byTag value with
      | none => some []
      | some found => some found

/-- `Handler.Path` (HTTP): split the request on `-`, canonicalize, look
up.  `none` models the index-out-of-range panic when the split yields a
single element. -/
def Handler.pathEndpoint (h : Handler) (pathVar : Option String) : Option (List RespEvent) :=
  match pathVar with
  | none => some badRequest
  | some pathName =>
    match goSplit pathName '-' with
    | a :: b :: _ =>
      let canonical := getPathName a b
      match findPath h canonical with
      | (false, _) => some resourceNotFound
      | (true, path) => some (respondWithJSON (Payload.pathBody path))
    | _ => none

/-! ## The remote registry, as seen by one pass

Each endpoint of one synchronization pass is an oracle value: the
commit-history check, the two directory listings, and the three
per-name document fetches.  `failed` covers every aborting outcome the
source folds together — network error, non-404 non-200 status, body
read error, and JSON parse failure; `notFound` is a 404 on a document
fetch (tolerated).  A 404 on a listing or the commit check is *not*
tolerated by the source and is therefore `failed` here. -/

/-- One entry of a GitHub contents listing.  The Go code reads the
`name` and `type` JSON fields with unchecked type assertions; entries
carrying both as strings are the ones modelled. -/
structure DirEntry where
  name : String
  entryType : String
deriving DecidableEq

/-- Outcome of a directory-listing request. -/
inductive ListingRes where
  | ok (entries : List DirEntry)
  | failed
deriving DecidableEq

/-- Outcome of the commit-history request: the number of commits since
the last update, or a failure. -/
inductive CommitsRes where
  | ok (n : Nat)
  | failed
deriving DecidableEq

/-- Outcome of a raw document fetch-and-parse. -/
inductive DocRes (α : Type) where
  | ok (doc : α)
  | notFound
  | failed
deriving DecidableEq

/-- The remote source fixed for the duration of one pass. -/
structure Registry where
  commits : CommitsRes
  contents : ListingRes
  ibcContents : ListingRes
  chainDoc : String → DocRes Chain
  assetDoc : String → DocRes AssetList
  pathDoc : String → DocRes types.Path

/-- One network request performed during a pass. -/
inductive Fetch where
  | commits
  | contents
  | ibcContents
  | chainDoc (name : String)
  | assetDoc (name : String)
  | pathDoc (name : String)
deriving DecidableEq

/-- Is this fetch a document fetch (as opposed to a listing or the
commit check)? -/
def Fetch.isDocFetch : Fetch → Bool
  | Fetch.chainDoc _ => true
  | Fetch.assetDoc _ => true
  | Fetch.pathDoc _ => true
  | _ => false

/-- Result of a pass step: Go `nil` return, `error` return, or panic. -/
inductive RunRes where
  | success
  | failure
  | panicked
deriving DecidableEq

/-- Result of a whole pass: final handler state, the requests made, and
how the pass ended. -/
structure PullOut where
  state : Handler
  trace : List Fetch
  res : RunRes
deriving DecidableEq

/-! ## Discovery filters and the tag index builder -/

/-- One iteration of `Handler.getChains`' filter loop: keep directories
whose name contains neither `testnets` nor a `.`. -/
def chainsStep (chains : List String) (entry : DirEntry) : List String :=
  if entry.entryType ≠ "dir" then chains
  else if goContains entry.name "testnets" then chains
  else if goContains entry.name "." then chains
  else chains ++ [entry.name]

/-- The filter loop of `Handler.getChains`. -/
def chainsFrom (entries : List DirEntry) : List String :=
  entries.foldl chainsStep []

/-- One iteration of `Handler.getPaths`' filter loop: keep files whose
name contains `.json` and `-`, truncated at the first `.`. -/
def pathsStep (paths : List String) (entry : DirEntry) : List String :=
  if entry.entryType ≠ "file" then paths
  else if goContains entry.name ".json" = false then paths
  else if goContains entry.name "-" = false then paths
  else paths ++ [(goSplit entry.name '.').headD ""]

/-- The filter loop of `Handler.getPaths`. -/
def pathsFrom (entries : List DirEntry) : List String :=
  entries.foldl pathsStep []

/-- `h.pathsByTag[dim][value] = append(h.pathsByTag[dim][value], p)`.
If `dim` is absent the Go assignment into a nil inner map would panic;
`NewHandler` seeds all four dimensions, so that branch is unreachable in
the running program and is modelled as a no-op. -/
def appendTag (pbt : TagMap) (dim value : String) (p : types.Path) : TagMap :=
  match mapFind pbt dim with
  | some inner =>
      mapInsert pbt dim (mapInsert inner value (((mapFind inner value).getD []) ++ [p]))
  | none => pbt

/-- One guarded append of the channel loop: append `p` under
`(dim, value)` when `cond` holds, as in `if len(...) > 0 { ... }`. -/
def tagStep (dim : String) (cond : Bool) (value : String) (p : types.Path) (pbt : TagMap) : TagMap :=
  if cond then appendTag pbt dim value p else pbt

/-- The per-channel body of `Handler.getPath`'s channel loop, in source
order: dex (if non-empty), preferred (always), properties (if
non-empty), status (if non-empty). -/
def indexChannel (p : types.Path) (pbt : TagMap) (ch : Channel) : TagMap :=
  tagStep "status" (decide (ch.tags.status ≠ "")) ch.tags.status p
    (tagStep "properties" (decide (ch.tags.properties ≠ "")) ch.tags.properties p
      (tagStep "preferred" true (formatBool ch.tags.preferred) p
        (tagStep "dex" (decide (ch.tags.dex ≠ "")) ch.tags.dex p pbt)))

/-- The whole channel loop of `Handler.getPath`. -/
def indexPathTags (pbt : TagMap) (p : types.Path) : TagMap :=
  p.channels.foldl (indexChannel p) pbt

/-! ## The synchronization pass (`Handler.Pull`) -/

/-- `Handler.getChains`: replace `h.chains` from the top-level listing. -/
def getChains (reg : Registry) (h : Handler) : Handler × RunRes :=
  match reg.contents with
  | ListingRes.failed => (h, RunRes.failure)
  | ListingRes.ok es => ({h with chains := chainsFrom es}, RunRes.success)

/-- `Handler.getPaths`: replace `h.paths` from the `_IBC` listing. -/
def getPaths (reg : Registry) (h : Handler) : Handler × RunRes :=
  match reg.ibcContents with
  | ListingRes.failed => (h, RunRes.failure)
  | ListingRes.ok es => ({h with paths := pathsFrom es}, RunRes.success)

/-- `Handler.getChain`: fetch one chain document; 404 tolerated. -/
def getChain (reg : Registry) (h : Handler) (name : String) : Handler × RunRes :=
  match reg.chainDoc name with
  | DocRes.failed => (h, RunRes.failure)
  | DocRes.notFound => (h, RunRes.success)
  | DocRes.ok chain =>
      ({h with chainList := mapInsert h.chainList name chain,
               chainById := mapInsert h.chainById chain.chainID name}, RunRes.success)

/-- `Handler.getAssetList`: fetch one asset list; 404 tolerated. -/
def getAssetList (reg : Registry) (h : Handler) (name : String) : Handler × RunRes :=
  match reg.assetDoc name with
  | DocRes.failed => (h, RunRes.failure)
  | DocRes.notFound => (h, RunRes.success)
  | DocRes.ok al => ({h with assetList := mapInsert h.assetList name al}, RunRes.success)

/-- `Handler.getPath`: canonicalize, fetch, store, and index one path
document; 404 tolerated. -/
def getPath (reg : Registry) (h : Handler) (chain1Name chain2Name : String) : Handler × RunRes :=
  let name := getPathName chain1Name chain2Name
  match reg.pathDoc name with
  | DocRes.failed => (h, RunRes.failure)
  | DocRes.notFound => (h, RunRes.success)
  | DocRes.ok path =>
      ({h with pathList := mapInsert h.pathList name path,
               pathsByTag := indexPathTags h.pathsByTag path}, RunRes.success)

/-- The per-chain loop of `Pull`: chain document then asset list, in
discovery order, aborting on the first failure. -/
def chainLoop (reg : Registry) : List String → Handler → List Fetch → PullOut
  | [], h, tr => ⟨h, tr, RunRes.success⟩
  | c :: cs, h, tr =>
    let tr1 := tr ++ [Fetch.chainDoc c]
    let r1 := getChain reg h c
    match r1.2 with
    | RunRes.failure => ⟨r1.1, tr1, RunRes.failure⟩
    | _ =>
      let tr2 := tr1 ++ [Fetch.assetDoc c]
      let r2 := getAssetList reg r1.1 c
      match r2.2 with
      | RunRes.failure => ⟨r2.1, tr2, RunRes.failure⟩
      | _ => chainLoop reg cs r2.1 tr2

/-- The per-path loop of `Pull`: split each discovered name on `-` and
index the first two tokens.  A name the split leaves whole has no second
token: Go's `names[1]` panics (index out of range). -/
def pathLoop (reg : Registry) : List String → Handler → List Fetch → PullOut
  | [], h, tr => ⟨h, tr, RunRes.success⟩
  | p :: ps, h, tr =>
    match goSplit p '-' with
    | a :: b :: _ =>
      let tr1 := tr ++ [Fetch.pathDoc (getPathName a b)]
      let r := getPath reg h a b
      match r.2 with
      | RunRes.failure => ⟨r.1, tr1, RunRes.failure⟩
      | _ => pathLoop reg ps r.1 tr1
    | _ => ⟨h, tr, RunRes.panicked⟩

/-- The asset-indexing loop at the end of `Pull`.  The local `assets`
slice the source builds alongside is never assigned to `h.assets`, so
only `chainByAsset` changes (last writer wins on a display-name
collision). -/
def indexAssets (h : Handler) : Handler :=
  let step := fun (cba : GoMap String String) (kv : String × AssetList) =>
    let name := (mapFind h.chainById kv.2.chainID).getD ""
    kv.2.assets.foldl (fun cba2 a => mapInsert cba2 a.display name) cba
  { h with chainByAsset := h.assetList.foldl step h.chainByAsset }

/-- The tail of `Pull` after the per-path loop: on success, index the
assets and stamp the update time; on error or panic, stop as-is. -/
def pullFinish (now : Nat) (o2 : PullOut) : PullOut :=
  match o2.res with
  | RunRes.success => ⟨{indexAssets o2.state with lastUpdated := now}, o2.trace, RunRes.success⟩
  | r => ⟨o2.state, o2.trace, r⟩

/-- The tail of `Pull` after both directory listings succeeded: run the
per-path loop over the discovered path names, then finish. -/
def pullAfterListings (reg : Registry) (now : Nat) (o1 : PullOut) : PullOut :=
  match o1.res with
  | RunRes.success => pullFinish now (pathLoop reg o1.state.paths o1.state o1.trace)
  | r => ⟨o1.state, o1.trace, r⟩

/-- `Handler.Pull`: one synchronization pass, mutating the handler in
place exactly as the source does and recording every request made. -/
def Pull (reg : Registry) (now : Nat) (h : Handler) : PullOut :=
  match reg.commits with
  | CommitsRes.failed => ⟨h, [Fetch.commits], RunRes.failure⟩
  | CommitsRes.ok n =>
    if n = 0 then
      ⟨{h with lastUpdated := now}, [Fetch.commits], RunRes.success⟩
    else
      let tr1 := [Fetch.commits, Fetch.contents]
      let r1 := getChains reg h
      match r1.2 with
      | RunRes.failure => ⟨r1.1, tr1, RunRes.failure⟩
      | _ =>
        let tr2 := tr1 ++ [Fetch.ibcContents]
        let r2 := getPaths reg r1.1
        match r2.2 with
        | RunRes.failure => ⟨r2.1, tr2, RunRes.failure⟩
        | _ => pullAfterListings reg now (chainLoop reg r2.1.chains r2.1 tr2)

/-! ## Derived notions used by the claims -/

/-- The bucket `pathsByTag[dim][value]`, empty when either key is
absent. -/
def bucket (pbt : TagMap) (dim value : String) : List types.Path :=
  ((mapFind pbt dim).bind (fun inner => mapFind inner value)).getD []

/-- The four tag dimensions `NewHandler` seeds are present in the
index. -/
def hasTagDims (pbt : TagMap) : Prop :=
  (mapFind pbt "dex").isSome ∧ (mapFind pbt "preferred").isSome
    ∧ (mapFind pbt "properties").isSome ∧ (mapFind pbt "status").isSome

/-- The per-path step of `Pull` completes without aborting for `p`:
the name splits into at least two tokens (so `names[1]` is in range)
and its document fetch is not a hard failure, so the loop moves on to
the next discovered name. -/
def pathStepOk (reg : Registry) (p : String) : Prop :=
  ∃ a b t, goSplit p '-' = a :: b :: t ∧ reg.pathDoc (getPathName a b) ≠ DocRes.failed

/-- The per-path step of `Pull` hits a hard document failure for `p`. -/
def pathFailsAt (reg : Registry) (p : String) : Prop :=
  ∃ a b t, goSplit p '-' = a :: b :: t ∧ reg.pathDoc (getPathName a b) = DocRes.failed

/-- Path discovery as the spec words it: keep entries that are files
whose name contains both a `.` and a `-`, strip the extension.  Stated
only to be compared against the source's `pathsFrom`. -/
def specPathDiscovery (entries : List DirEntry) : List String :=
  (entries.filter (fun e =>
      decide (e.entryType = "file") && goContains e.name "." && goContains e.name "-")).map
    (fun e => (goSplit e.name '.').headD "")

/-! ## Concrete states used as witnesses and counterexamples -/

/-- A previously published snapshot: a fresh handler that has already
seen one successful pass discovering the chain `oldchain`. -/
def hPrev : Handler :=
  {NewHandler "registry" with chains := ["oldchain"]}

/-- A registry snapshot for one pass: new commits, one chain directory
`foo`, and a hard (non-404) failure on every chain document fetch. -/
def regFail : Registry where
  commits := CommitsRes.ok 1
  contents := ListingRes.ok [⟨"foo", "dir"⟩]
  ibcContents := ListingRes.ok []
  chainDoc := fun _ => DocRes.failed
  assetDoc := fun _ => DocRes.notFound
  pathDoc := fun _ => DocRes.notFound

/-- The same registry with no commits since the last pass. -/
def regEmpty : Registry :=
  {regFail with commits := CommitsRes.ok 0}

/-- A sample chain document. -/
def chainAtom : Chain :=
  ⟨"cosmoshub-4", "Cosmos Hub", ⟨[], [], []⟩, ⟨[], []⟩⟩

/-- A handler that has loaded `chainAtom` under the name `atom`. -/
def hChains : Handler :=
  {NewHandler "registry" with
    chainList := [("atom", chainAtom)]
    chainById := [("cosmoshub-4", "atom")]}

/-- A channel tagged as live, preferred, on the dex `d`. -/
def chanDex (d : String) : Channel :=
  ⟨⟨"channel-0", "transfer"⟩, ⟨"channel-1", "transfer"⟩, "ordered", "ics20-1",
    ⟨"live", true, d, ""⟩⟩

/-- A path document with two channels on the same dex: both qualify, so
the whole path is appended twice to the same bucket. -/
def pathOsmo : types.Path :=
  ⟨⟨"atom", "07-tendermint-0", "connection-0"⟩, ⟨"osmo", "07-tendermint-1", "connection-1"⟩,
    [chanDex "osmosis", chanDex "osmosis"]⟩

/-! ## Association-list lemmas -/

theorem mapFind_mapInsert_self {α β : Type} [DecidableEq α] (m : GoMap α β) (k : α) (v : β) :
    mapFind (mapInsert m k v) k = some v := by
  induction m with
  | nil => simp [mapInsert, mapFind]
  | cons kv rest ih =>
    obtain ⟨k', v'⟩ := kv
    by_cases hk : k' = k
    · simp [mapInsert, hk, mapFind]
    · simp [mapInsert, hk, mapFind, ih]

theorem mapFind_mapInsert_ne {α β : Type} [DecidableEq α] (m : GoMap α β) (k k' : α) (v : β)
    (h : k' ≠ k) : mapFind (mapInsert m k v) k' = mapFind m k' := by
  have hkk : ¬(k = k') := fun hh => h hh.symm
  induction m with
  | nil => simp [mapInsert, mapFind, hkk]
  | cons kv rest ih =>
    obtain ⟨k'', v''⟩ := kv
    by_cases hk : k'' = k
    · subst hk
      simp [mapInsert, mapFind, hkk]
    · simp [mapInsert, hk, mapFind, ih]

/-! ## String-order lemmas -/

theorem charListCompare_eq_iff : ∀ a b : List Char,
    charListCompare a b = Ordering.eq ↔ a = b
  | [], [] => by simp [charListCompare]
  | [], _ :: _ => by simp [charListCompare]
  | _ :: _, [] => by simp [charListCompare]
  | x :: xs, y :: ys => by
    simp only [charListCompare]
    by_cases h1 : x < y
    · simp only [if_pos h1]
      constructor
      · intro hc; cases hc
      · rintro ⟨⟩; exact absurd h1 (lt_irrefl x)
    · by_cases h2 : y < x
      · simp only [if_neg h1, if_pos h2]
        constructor
        · intro hc; cases hc
        · rintro ⟨⟩; exact absurd h2 (lt_irrefl x)
      · have hxy : x = y := le_antisymm (le_of_not_lt h2) (le_of_not_lt h1)
        subst hxy
        simp [charListCompare_eq_iff xs ys]

theorem charListCompare_swap : ∀ a b : List Char,
    charListCompare b a = (charListCompare a b).swap
  | [], [] => rfl
  | [], _ :: _ => rfl
  | _ :: _, [] => rfl
  | x :: xs, y :: ys => by
    simp only [charListCompare]
    by_cases h1 : x < y
    · simp [h1, not_lt_of_lt h1, Ordering.swap]
    · by_cases h2 : y < x
      · simp [h1, h2, not_lt_of_lt h2, Ordering.swap]
      · have hxy : x = y := le_antisymm (le_of_not_lt h2) (le_of_not_lt h1)
        subst hxy
        simp [charListCompare_swap xs ys]

theorem strCompare_eq {a b : String} (h : strCompare a b = Ordering.eq) : a = b := by
  obtain ⟨la⟩ := a
  obtain ⟨lb⟩ := b
  have : la = lb := (charListCompare_eq_iff la lb).mp h
  subst this
  rfl

theorem strCompare_swap (a b : String) : strCompare b a = (strCompare a b).swap :=
  charListCompare_swap a.data b.data

/-! ## Claim C2: canonical path-name symmetry -/

/-- **C2.** The canonical path name is symmetric — `canon(a,b)` equals
`canon(b,a)` — and always places the lexicographically smaller name
first; consequently `getPath(a,b)` and `getPath(b,a)` look up the same
entry and return identical results. -/
theorem getPathName_symmetric_getPath_agrees (a b : String) (h : Handler) :
    getPathName a b = getPathName b a
    ∧ (∃ x y, getPathName a b = x ++ "-" ++ y ∧ strCompare x y ≠ Ordering.gt
        ∧ ((x = a ∧ y = b) ∨ (x = b ∧ y = a)))
    ∧ findPath h (getPathName a b) = findPath h (getPathName b a) := by
  have hsymm : getPathName a b = getPathName b a := by
    unfold getPathName
    cases hab : strCompare a b with
    | lt =>
      have hba : strCompare b a = Ordering.gt := by rw [strCompare_swap, hab]; rfl
      simp [hab, hba]
    | eq =>
      have : a = b := strCompare_eq hab
      subst this
      simp [hab]
    | gt =>
      have hba : strCompare b a = Ordering.lt := by rw [strCompare_swap, hab]; rfl
      simp [hab, hba]
  refine ⟨hsymm, ?_, by rw [hsymm]⟩
  cases hab : strCompare a b with
  | lt =>
    exact ⟨a, b, by unfold getPathName; simp [hab], by simp [hab], Or.inl ⟨rfl, rfl⟩⟩
  | eq =>
    exact ⟨a, b, by unfold getPathName; simp [hab], by simp [hab], Or.inl ⟨rfl, rfl⟩⟩
  | gt =>
    refine ⟨b, a, by unfold getPathName; simp [hab], ?_, Or.inr ⟨rfl, rfl⟩⟩
    rw [strCompare_swap, hab]
    simp [Ordering.swap]

/-- Instance of C2 at a concrete pair of chain names. -/
theorem getPathName_symmetric_getPath_agrees_witness :
    getPathName "osmo" "atom" = getPathName "atom" "osmo" :=
  (getPathName_symmetric_getPath_agrees "osmo" "atom" hPrev).1

/-! ## Claim C3: two-stage chain resolution -/

/-- **C3.** `getChain` tries the key first as a chain name and then as
a chain identifier, returning the resolved Chain; it reports not-found
exactly when the key is neither a loaded chain name nor a loaded chain
identifier. -/
theorem findChain_two_stage (h : Handler) (key : String) :
    ((findChain h key).1 = false ↔
        (mapFind h.chainList key = none ∧ mapFind h.chainById key = none))
    ∧ (∀ c, mapFind h.chainList key = some c → findChain h key = (true, c))
    ∧ (∀ n, mapFind h.chainList key = none → mapFind h.chainById key = some n →
        findChain h key = (true, (mapFind h.chainList n).getD Chain.empty))
    ∧ ((findChain h key).1 = false →
        Handler.chainEndpoint h (some key) = resourceNotFound) := by
  refine ⟨?_, ?_, ?_, ?_⟩
  · unfold findChain
    rcases h1 : mapFind h.chainList key with _ | c
    · rcases h2 : mapFind h.chainById key with _ | n <;> simp
    · simp
  · intro c hc
    unfold findChain
    rw [hc]
  · intro n h1 h2
    unfold findChain
    rw [h1, h2]
  · intro hnf
    rcases hfc : findChain h key with ⟨found, c⟩
    rw [hfc] at hnf
    have hfound : found = false := hnf
    subst hfound
    unfold Handler.chainEndpoint
    simp [hfc]

/-- Instance of C3: a chain identifier resolves through `chainById`. -/
theorem findChain_two_stage_witness :
    findChain hChains "cosmoshub-4" =
      (true, (mapFind hChains.chainList "atom").getD Chain.empty) :=
  (findChain_two_stage hChains "cosmoshub-4").2.2.1 "atom" (by decide) (by decide)

/-! ## Claim C10: path handler panics on a dash-free request -/

theorem splitChar_no_sep (c : Char) : ∀ l : List Char,
    containsSub [c] l = false → splitChar c l = [l]
  | [], _ => rfl
  | a :: as, h => by
    have h' : (containsSub [c] (a :: as) = false) := h
    simp only [containsSub, startsWithCL, Bool.or_eq_false_iff, Bool.and_eq_false_iff] at h'
    obtain ⟨hac, hrest⟩ := h'
    have hca : ¬(a = c) := by
      intro hh
      subst hh
      simp [startsWithCL] at hac
    simp [splitChar, hca, splitChar_no_sep c as hrest]

/-- **C10.** A request path containing no `-` survives the split as a
single token, so the handler's read of the second token is out of
range: the Go code panics instead of returning a bad-request or
not-found response. -/
theorem pathEndpoint_panics_without_dash (h : Handler) (s : String)
    (hnd : goContains s "-" = false) :
    Handler.pathEndpoint h (some s) = none := by
  have hl : splitChar '-' s.data = [s.data] := by
    apply splitChar_no_sep
    have : containsSub "-".data s.data = false := hnd
    simpa using this
  unfold Handler.pathEndpoint
  simp [goSplit, hl]

/-- Instance of C10 at a concrete dash-free request. -/
theorem pathEndpoint_panics_without_dash_witness :
    Handler.pathEndpoint hPrev (some "atomosmo") = none :=
  pathEndpoint_panics_without_dash hPrev "atomosmo" (by decide)

/-! ## Claim C6: unrecognized tag dimension -/

/-- **C6 counterexample.** With an empty value the tag filter returns
all paths before ever consulting the dimension, so an unrecognized
dimension does *not* always panic: at value `""` it returns a result
normally. -/
theorem getPathsWithTag_empty_value_no_panic :
    getPathsWithTag (NewHandler "registry") "bogus" "" = some []
    ∧ (getPathsWithTag (NewHandler "registry") "bogus" "").isSome = true := by decide

/-- **C6 (amended).** For every *non-empty* value, requesting a tag
dimension absent from `pathsByTag` panics and never returns; for the
handler built by `NewHandler`, the absent dimensions are exactly those
outside status, preferred, dex, properties.  (With an empty value the
function instead returns all paths without consulting the dimension.) -/
theorem getPathsWithTag_unknown_dim_panics (h : Handler) (tag value : String) :
    (value ≠ "" → mapFind h.pathsByTag tag = none → getPathsWithTag h tag value = none)
    ∧ (mapFind (NewHandler "registry").pathsByTag tag = none ↔
        (tag ≠ "dex" ∧ tag ≠ "preferred" ∧ tag ≠ "properties" ∧ tag ≠ "status")) := by
  constructor
  · intro hv ht
    unfold getPathsWithTag
    simp [hv, ht]
  · show mapFind [("dex", []), ("preferred", []), ("properties", []), ("status", [])] tag
        = none ↔ _
    simp only [mapFind]
    split_ifs with h1 h2 h3 h4 <;> (simp_all; try tauto)

/-- Instance of C6 (amended): a non-empty value under an unknown
dimension panics. -/
theorem getPathsWithTag_unknown_dim_panics_witness :
    getPathsWithTag (NewHandler "registry") "bogus" "x" = none :=
  (getPathsWithTag_unknown_dim_panics (NewHandler "registry") "bogus" "x").1
    (by decide) (by decide)

/-! ## Claim C7: empty value and unknown value -/

/-- **C7.** With an empty value, the tag filter returns all paths —
the same collection `listPaths` serves — and with a recognized
dimension but a non-empty value present in no bucket it returns the
empty set. -/
theorem getPathsWithTag_empty_and_missing_value (h : Handler) (tag value : String)
    (inner : GoMap String (List types.Path))
    (hv : value ≠ "") (ht : mapFind h.pathsByTag tag = some inner)
    (hmiss : mapFind inner value = none) :
    getPathsWithTag h tag value = some []
    ∧ getPathsWithTag h tag "" = some (allPaths h)
    ∧ Handler.pathsEndpoint h = respondWithJSON (Payload.paths (allPaths h)) := by
  refine ⟨?_, ?_, rfl⟩
  · unfold getPathsWithTag
    simp [hv, ht, hmiss]
  · unfold getPathsWithTag
    simp

/-- Instance of C7 at the fresh handler, dimension `dex`, value `x`. -/
theorem getPathsWithTag_empty_and_missing_value_witness :
    getPathsWithTag (NewHandler "registry") "dex" "x" = some [] :=
  (getPathsWithTag_empty_and_missing_value (NewHandler "registry") "dex" "x" []
    (by decide) (by decide) (by decide)).1

/-! ## Claim C4: asset-list resolution outcome -/

/-- **C4 counterexample.** On a key that is neither a loaded chain name
nor a chain id, `ChainAsset` does *not* produce a not-found outcome: it
writes a bad-request status (and, lacking an early return, still
responds with the zero-valued asset list). -/
theorem chainAsset_not_found_counterexample :
    Handler.ChainAsset (NewHandler "registry") (some "nochain") =
      RespEvent.status 400 :: respondWithJSON (Payload.assetListBody AssetList.empty)
    ∧ Handler.ChainAsset (NewHandler "registry") (some "nochain") ≠ resourceNotFound := by
  decide

/-- **C4 (amended).** `getAssetList` resolves the key with the same
two-stage resolution as `getChain` (first as a chain name keying
`assetList`, then as a chain identifier), but on a key matching neither
it produces a *bad-request* outcome, not a not-found one — and, because
the failing branch lacks a `return`, it still writes an OK/JSON response
carrying the zero-valued asset list afterwards. -/
theorem chainAsset_two_stage_bad_request (h : Handler) (key : String) :
    (∀ al, mapFind h.assetList key = some al →
        Handler.ChainAsset h (some key) = respondWithJSON (Payload.assetListBody al))
    ∧ (∀ n, mapFind h.assetList key = none → mapFind h.chainById key = some n →
        Handler.ChainAsset h (some key) =
          respondWithJSON (Payload.assetListBody ((mapFind h.assetList n).getD AssetList.empty)))
    ∧ (mapFind h.assetList key = none → mapFind h.chainById key = none →
        Handler.ChainAsset h (some key) =
          RespEvent.status 400 ::
            respondWithJSON (Payload.assetListBody ((mapFind h.assetList "").getD AssetList.empty))) := by
  refine ⟨?_, ?_, ?_⟩
  · intro al hal
    unfold Handler.ChainAsset
    simp [hal]
  · intro n h1 h2
    unfold Handler.ChainAsset
    simp [h1, h2]
  · intro h1 h2
    unfold Handler.ChainAsset
    simp [h1, h2, badRequest]

/-- Instance of C4 (amended) at the fresh handler and an unresolvable
key. -/
theorem chainAsset_two_stage_bad_request_witness :
    Handler.ChainAsset (NewHandler "registry") (some "nochain") =
      RespEvent.status 400 ::
        respondWithJSON
          (Payload.assetListBody
            ((mapFind (NewHandler "registry").assetList "").getD AssetList.empty)) :=
  (chainAsset_two_stage_bad_request (NewHandler "registry") "nochain").2.2
    (by decide) (by decide)

/-! ## Claim C9: path discovery filter -/

theorem pathsStep_append (acc : List String) (e : DirEntry) :
    pathsStep acc e = acc ++ pathsStep [] e := by
  unfold pathsStep
  split_ifs <;> simp

theorem foldl_pathsStep (entries : List DirEntry) : ∀ acc : List String,
    entries.foldl pathsStep acc = acc ++ entries.foldl pathsStep [] := by
  induction entries with
  | nil => intro acc; simp
  | cons e es ih =>
    intro acc
    simp only [List.foldl_cons]
    rw [ih (pathsStep acc e), ih (pathsStep [] e), pathsStep_append acc e, List.append_assoc]

/-- **C9 counterexample.** The entry `a-b.txt` is a file containing
both a `.` and a `-`, so the claim's filter keeps it (producing `a-b`),
but the source's filter requires the substring `.json` and drops it. -/
theorem pathsFrom_dot_only_counterexample :
    specPathDiscovery [⟨"a-b.txt", "file"⟩] = ["a-b"]
    ∧ pathsFrom [⟨"a-b.txt", "file"⟩] = [] := by decide

/-- **C9 (amended).** Path discovery keeps exactly those
directory-listing entries of type file whose name contains the
substring `.json` and a `-` separator, and takes the portion of each
kept name before its first `.` as the path document name. -/
theorem pathsFrom_filter_characterization (entries : List DirEntry) :
    pathsFrom entries =
      (entries.filter (fun e =>
          decide (e.entryType = "file") && goContains e.name ".json"
            && goContains e.name "-")).map
        (fun e => (goSplit e.name '.').headD "") := by
  induction entries with
  | nil => rfl
  | cons e es ih =>
    unfold pathsFrom
    simp only [List.foldl_cons]
    rw [foldl_pathsStep es (pathsStep [] e)]
    show pathsStep [] e ++ pathsFrom es = _
    rw [ih]
    by_cases h1 : e.entryType = "file"
    · by_cases h2 : goContains e.name ".json" = true
      · by_cases h3 : goContains e.name "-" = true
        · simp [pathsStep, h1, h2, h3]
        · simp [pathsStep, h1, h2, h3]
      · simp [pathsStep, h1, h2]
    · simp [pathsStep, h1]

/-! ## Claim C5: tag-bucket construction -/

theorem bucket_appendTag_same (pbt : TagMap) (dim value : String) (p : types.Path)
    (hdim : (mapFind pbt dim).isSome) :
    bucket (appendTag pbt dim value p) dim value = bucket pbt dim value ++ [p] := by
  rcases hfind : mapFind pbt dim with _ | inner
  · rw [hfind] at hdim; cases hdim
  · simp [bucket, appendTag, hfind, mapFind_mapInsert_self]

theorem bucket_appendTag_other (pbt : TagMap) (dim value dim' value' : String) (p : types.Path)
    (hne : dim' ≠ dim ∨ value' ≠ value) :
    bucket (appendTag pbt dim value p) dim' value' = bucket pbt dim' value' := by
  rcases hfind : mapFind pbt dim with _ | inner
  · simp [appendTag, hfind]
  · by_cases hdd : dim' = dim
    · subst hdd
      rcases hne with hd | hv
      · exact absurd rfl hd
      · simp [bucket, appendTag, hfind, mapFind_mapInsert_self,
          mapFind_mapInsert_ne _ _ _ _ hv]
    · simp [bucket, appendTag, hfind, mapFind_mapInsert_ne _ _ _ _ hdd]

theorem mapFind_appendTag_isSome (pbt : TagMap) (dim value d' : String) (p : types.Path) :
    (mapFind (appendTag pbt dim value p) d').isSome = (mapFind pbt d').isSome := by
  rcases hfind : mapFind pbt dim with _ | inner
  · simp [appendTag, hfind]
  · by_cases hdd : d' = dim
    · subst hdd
      simp [appendTag, hfind, mapFind_mapInsert_self]
    · simp [appendTag, hfind, mapFind_mapInsert_ne _ _ _ _ hdd]

theorem bucket_tagStep_same (pbt : TagMap) (dim v : String) (cond : Bool) (value : String)
    (p : types.Path) (hdim : (mapFind pbt dim).isSome) :
    bucket (tagStep dim cond value p pbt) dim v
      = bucket pbt dim v ++ (if cond && decide (value = v) then [p] else []) := by
  unfold tagStep
  cases cond
  · simp
  · by_cases hv : value = v
    · subst hv
      simp [bucket_appendTag_same pbt dim value p hdim]
    · simp [hv, bucket_appendTag_other pbt dim value dim v p (Or.inr (fun hh => hv hh.symm))]

theorem bucket_tagStep_other (pbt : TagMap) (dim : String) (cond : Bool) (value : String)
    (p : types.Path) (d' v' : String) (hd : d' ≠ dim) :
    bucket (tagStep dim cond value p pbt) d' v' = bucket pbt d' v' := by
  unfold tagStep
  cases cond
  · rfl
  · simp [bucket_appendTag_other pbt dim value d' v' p (Or.inl hd)]

theorem isSome_tagStep (pbt : TagMap) (dim : String) (cond : Bool) (value : String)
    (p : types.Path) (d' : String) :
    (mapFind (tagStep dim cond value p pbt) d').isSome = (mapFind pbt d').isSome := by
  unfold tagStep
  cases cond
  · rfl
  · simp [mapFind_appendTag_isSome]

theorem hasTagDims_tagStep (pbt : TagMap) (dim : String) (cond : Bool) (value : String)
    (p : types.Path) (h : hasTagDims pbt) : hasTagDims (tagStep dim cond value p pbt) := by
  obtain ⟨h1, h2, h3, h4⟩ := h
  refine ⟨?_, ?_, ?_, ?_⟩ <;> rw [isSome_tagStep] <;> assumption

theorem hasTagDims_indexChannel (p : types.Path) (pbt : TagMap) (ch : Channel)
    (h : hasTagDims pbt) : hasTagDims (indexChannel p pbt ch) := by
  unfold indexChannel
  exact hasTagDims_tagStep _ _ _ _ _
    (hasTagDims_tagStep _ _ _ _ _
      (hasTagDims_tagStep _ _ _ _ _
        (hasTagDims_tagStep _ _ _ _ _ h)))

theorem bucket_indexChannel_dex (p : types.Path) (pbt : TagMap) (ch : Channel) (v : String)
    (h : hasTagDims pbt) :
    bucket (indexChannel p pbt ch) "dex" v
      = bucket pbt "dex" v
          ++ (if decide (ch.tags.dex = v ∧ v ≠ "") = true then [p] else []) := by
  obtain ⟨h1, h2, h3, h4⟩ := h
  unfold indexChannel
  rw [bucket_tagStep_other _ "status" _ _ _ "dex" _ (by decide),
    bucket_tagStep_other _ "properties" _ _ _ "dex" _ (by decide),
    bucket_tagStep_other _ "preferred" _ _ _ "dex" _ (by decide),
    bucket_tagStep_same _ _ _ _ _ _ h1]
  have hcond : (decide (ch.tags.dex ≠ "") && decide (ch.tags.dex = v))
      = decide (ch.tags.dex = v ∧ v ≠ "") := by
    by_cases hdv : ch.tags.dex = v
    · subst hdv
      by_cases hne : ch.tags.dex = "" <;> simp [hne]
    · simp [hdv]
  rw [hcond]

theorem bucket_indexChannel_preferred (p : types.Path) (pbt : TagMap) (ch : Channel) (v : String)
    (h : hasTagDims pbt) :
    bucket (indexChannel p pbt ch) "preferred" v
      = bucket pbt "preferred" v
          ++ (if decide (formatBool ch.tags.preferred = v) = true then [p] else []) := by
  obtain ⟨h1, h2, h3, h4⟩ := h
  have hpref : (mapFind (tagStep "dex" (decide (ch.tags.dex ≠ "")) ch.tags.dex p pbt)
      "preferred").isSome := by
    rw [isSome_tagStep]; exact h2
  unfold indexChannel
  rw [bucket_tagStep_other _ "status" _ _ _ "preferred" _ (by decide),
    bucket_tagStep_other _ "properties" _ _ _ "preferred" _ (by decide),
    bucket_tagStep_same _ _ _ _ _ _ hpref,
    bucket_tagStep_other _ "dex" _ _ _ "preferred" _ (by decide)]
  simp

theorem bucket_indexChannel_properties (p : types.Path) (pbt : TagMap) (ch : Channel) (v : String)
    (h : hasTagDims pbt) :
    bucket (indexChannel p pbt ch) "properties" v
      = bucket pbt "properties" v
          ++ (if decide (ch.tags.properties = v ∧ v ≠ "") = true then [p] else []) := by
  obtain ⟨h1, h2, h3, h4⟩ := h
  have hprop : (mapFind
      (tagStep "preferred" true (formatBool ch.tags.preferred) p
        (tagStep "dex" (decide (ch.tags.dex ≠ "")) ch.tags.dex p pbt))
      "properties").isSome := by
    rw [isSome_tagStep, isSome_tagStep]; exact h3
  unfold indexChannel
  rw [bucket_tagStep_other _ "status" _ _ _ "properties" _ (by decide),
    bucket_tagStep_same _ _ _ _ _ _ hprop,
    bucket_tagStep_other _ "preferred" _ _ _ "properties" _ (by decide),
    bucket_tagStep_other _ "dex" _ _ _ "properties" _ (by decide)]
  have hcond : (decide (ch.tags.properties ≠ "") && decide (ch.tags.properties = v))
      = decide (ch.tags.properties = v ∧ v ≠ "") := by
    by_cases hdv : ch.tags.properties = v
    · subst hdv
      by_cases hne : ch.tags.properties = "" <;> simp [hne]
    · simp [hdv]
  rw [hcond]

theorem bucket_indexChannel_status (p : types.Path) (pbt : TagMap) (ch : Channel) (v : String)
    (h : hasTagDims pbt) :
    bucket (indexChannel p pbt ch) "status" v
      = bucket pbt "status" v
          ++ (if decide (ch.tags.status = v ∧ v ≠ "") = true then [p] else []) := by
  obtain ⟨h1, h2, h3, h4⟩ := h
  have hstat : (mapFind
      (tagStep "properties" (decide (ch.tags.properties ≠ "")) ch.tags.properties p
        (tagStep "preferred" true (formatBool ch.tags.preferred) p
          (tagStep "dex" (decide (ch.tags.dex ≠ "")) ch.tags.dex p pbt)))
      "status").isSome := by
    rw [isSome_tagStep, isSome_tagStep, isSome_tagStep]; exact h4
  unfold indexChannel
  rw [bucket_tagStep_same _ _ _ _ _ _ hstat,
    bucket_tagStep_other _ "properties" _ _ _ "status" _ (by decide),
    bucket_tagStep_other _ "preferred" _ _ _ "status" _ (by decide),
    bucket_tagStep_other _ "dex" _ _ _ "status" _ (by decide)]
  have hcond : (decide (ch.tags.status ≠ "") && decide (ch.tags.status = v))
      = decide (ch.tags.status = v ∧ v ≠ "") := by
    by_cases hdv : ch.tags.status = v
    · subst hdv
      by_cases hne : ch.tags.status = "" <;> simp [hne]
    · simp [hdv]
  rw [hcond]

theorem bucket_foldl_channels (p : types.Path) (d v : String) (q : Channel → Bool)
    (hq : ∀ (pbt : TagMap) (ch : Channel), hasTagDims pbt →
        bucket (indexChannel p pbt ch) d v = bucket pbt d v ++ (if q ch = true then [p] else [])) :
    ∀ (chs : List Channel) (pbt : TagMap), hasTagDims pbt →
      bucket (chs.foldl (indexChannel p) pbt) d v
        = bucket pbt d v ++ List.replicate (chs.countP q) p := by
  intro chs
  induction chs with
  | nil => intro pbt h; simp
  | cons ch chs ih =>
    intro pbt h
    simp only [List.foldl_cons]
    rw [ih _ (hasTagDims_indexChannel p pbt ch h), hq pbt ch h, List.append_assoc]
    congr 1
    rw [List.countP_cons]
    by_cases hqc : q ch = true
    · simp [hqc, List.replicate_succ]
    · simp [hqc]

/-- **C5.** For every path ingested during a pass and every channel in
it, the whole path (not the channel) is appended to the preferred
bucket under the string form of its boolean value unconditionally, and
to the dex, properties, and status buckets under the channel's tag
value exactly when that value is a non-empty string; each bucket grows
by one copy of the path per qualifying channel, so a path with several
qualifying channels appears several times in the same bucket, not
deduplicated. -/
theorem indexPathTags_bucket_spec (pbt : TagMap) (p : types.Path) (v : String)
    (h : hasTagDims pbt) :
    bucket (indexPathTags pbt p) "preferred" v
        = bucket pbt "preferred" v
            ++ List.replicate
                (p.channels.countP (fun ch => decide (formatBool ch.tags.preferred = v))) p
    ∧ bucket (indexPathTags pbt p) "dex" v
        = bucket pbt "dex" v
            ++ List.replicate
                (p.channels.countP (fun ch => decide (ch.tags.dex = v ∧ v ≠ ""))) p
    ∧ bucket (indexPathTags pbt p) "properties" v
        = bucket pbt "properties" v
            ++ List.replicate
                (p.channels.countP (fun ch => decide (ch.tags.properties = v ∧ v ≠ ""))) p
    ∧ bucket (indexPathTags pbt p) "status" v
        = bucket pbt "status" v
            ++ List.replicate
                (p.channels.countP (fun ch => decide (ch.tags.status = v ∧ v ≠ ""))) p := by
  unfold indexPathTags
  refine ⟨?_, ?_, ?_, ?_⟩
  · exact bucket_foldl_channels p "preferred" v
      (fun ch => decide (formatBool ch.tags.preferred = v))
      (fun pbt' ch h' => bucket_indexChannel_preferred p pbt' ch v h') p.channels pbt h
  · exact bucket_foldl_channels p "dex" v
      (fun ch => decide (ch.tags.dex = v ∧ v ≠ ""))
      (fun pbt' ch h' => bucket_indexChannel_dex p pbt' ch v h') p.channels pbt h
  · exact bucket_foldl_channels p "properties" v
      (fun ch => decide (ch.tags.properties = v ∧ v ≠ ""))
      (fun pbt' ch h' => bucket_indexChannel_properties p pbt' ch v h') p.channels pbt h
  · exact bucket_foldl_channels p "status" v
      (fun ch => decide (ch.tags.status = v ∧ v ≠ ""))
      (fun pbt' ch h' => bucket_indexChannel_status p pbt' ch v h') p.channels pbt h

/-- Instance of C5 at a path with two channels on the same dex: the
bucket receives two copies of the whole path. -/
theorem indexPathTags_bucket_spec_witness :
    bucket (indexPathTags (NewHandler "registry").pathsByTag pathOsmo) "dex" "osmosis"
      = bucket (NewHandler "registry").pathsByTag "dex" "osmosis"
          ++ List.replicate
              (pathOsmo.channels.countP
                (fun ch => decide (ch.tags.dex = "osmosis" ∧ "osmosis" ≠ ""))) pathOsmo :=
  (indexPathTags_bucket_spec (NewHandler "registry").pathsByTag pathOsmo "osmosis"
    (by unfold hasTagDims; decide)).2.1

/-! ## Pass-level lemmas -/

theorem chainLoop_state_fields (reg : Registry) : ∀ (cs : List String) (h : Handler) (tr : List Fetch),
    (chainLoop reg cs h tr).state.lastUpdated = h.lastUpdated
    ∧ (chainLoop reg cs h tr).state.paths = h.paths := by
  intro cs
  induction cs with
  | nil => intro h tr; exact ⟨rfl, rfl⟩
  | cons c cs ih =>
    intro h tr
    unfold chainLoop getChain getAssetList
    rcases hcd : reg.chainDoc c with doc | _ | _ <;>
      rcases had : reg.assetDoc c with al | _ | _ <;>
      simp <;> exact ih _ _

theorem chainLoop_fails (reg : Registry) : ∀ (cs : List String) (c : String),
    c ∈ cs → (reg.chainDoc c = DocRes.failed ∨ reg.assetDoc c = DocRes.failed) →
    ∀ (h : Handler) (tr : List Fetch), (chainLoop reg cs h tr).res = RunRes.failure := by
  intro cs
  induction cs with
  | nil => intro c hc _ h tr; cases hc
  | cons c0 cs ih =>
    intro c hc hf h tr
    unfold chainLoop getChain getAssetList
    rcases hcd : reg.chainDoc c0 with doc | _ | _ <;>
      rcases had : reg.assetDoc c0 with al | _ | _ <;> simp
    all_goals
      rcases List.mem_cons.mp hc with heq | hmem
    all_goals try exact ih c hmem hf _ _
    all_goals subst heq
    all_goals rcases hf with h1 | h1
    all_goals simp [hcd, had] at h1

theorem chainLoop_all_ok (reg : Registry) : ∀ (cs : List String),
    (∀ c ∈ cs, reg.chainDoc c ≠ DocRes.failed ∧ reg.assetDoc c ≠ DocRes.failed) →
    ∀ (h : Handler) (tr : List Fetch), (chainLoop reg cs h tr).res = RunRes.success := by
  intro cs
  induction cs with
  | nil => intro _ h tr; rfl
  | cons c0 cs ih =>
    intro hall h tr
    obtain ⟨hc0, hcs⟩ := List.forall_mem_cons.mp hall
    unfold chainLoop getChain getAssetList
    rcases hcd : reg.chainDoc c0 with doc | _ | _ <;>
      rcases had : reg.assetDoc c0 with al | _ | _ <;> simp
    all_goals first
      | exact ih hcs _ _
      | exact absurd hcd hc0.1
      | exact absurd had hc0.2

theorem pathLoop_lastUpdated (reg : Registry) : ∀ (ps : List String) (h : Handler) (tr : List Fetch),
    (pathLoop reg ps h tr).state.lastUpdated = h.lastUpdated := by
  intro ps
  induction ps with
  | nil => intro h tr; rfl
  | cons p ps ih =>
    intro h tr
    unfold pathLoop getPath
    rcases hsp : goSplit p '-' with _ | ⟨a, _ | ⟨b, rest⟩⟩ <;> simp
    rcases hpd : reg.pathDoc (getPathName a b) with doc | _ | _ <;> simp
    all_goals exact ih _ _

theorem pathLoop_fails (reg : Registry) : ∀ (pre : List String) (p : String) (rest : List String),
    (∀ q ∈ pre, pathStepOk reg q) → pathFailsAt reg p →
    ∀ (h : Handler) (tr : List Fetch),
      (pathLoop reg (pre ++ p :: rest) h tr).res = RunRes.failure := by
  intro pre
  induction pre with
  | nil =>
    intro p rest _ hfail h tr
    obtain ⟨a, b, t, hsp, hpd⟩ := hfail
    rw [List.nil_append]
    unfold pathLoop getPath
    simp [hsp, hpd]
  | cons q pre ih =>
    intro p rest hall hfail h tr
    obtain ⟨hq, hpre⟩ := List.forall_mem_cons.mp hall
    obtain ⟨a, b, t, hsp, hnd⟩ := hq
    rw [List.cons_append]
    unfold pathLoop getPath
    rcases hpd : reg.pathDoc (getPathName a b) with doc | _ | _ <;> simp [hsp, hpd]
    all_goals exact ih p rest hpre hfail _ _

theorem pullAfterListings_of_fail (reg : Registry) (now : Nat) (o1 : PullOut)
    (hr : o1.res = RunRes.failure) :
    pullAfterListings reg now o1 = ⟨o1.state, o1.trace, RunRes.failure⟩ := by
  unfold pullAfterListings
  rw [hr]

theorem pullAfterListings_of_success (reg : Registry) (now : Nat) (o1 : PullOut)
    (hr : o1.res = RunRes.success) :
    pullAfterListings reg now o1
      = pullFinish now (pathLoop reg o1.state.paths o1.state o1.trace) := by
  unfold pullAfterListings
  rw [hr]

theorem pullFinish_of_fail (now : Nat) (o2 : PullOut) (hr : o2.res = RunRes.failure) :
    pullFinish now o2 = ⟨o2.state, o2.trace, RunRes.failure⟩ := by
  unfold pullFinish
  rw [hr]

theorem Pull_eq_pullAfterListings (reg : Registry) (now n : Nat) (h : Handler)
    (es fs : List DirEntry)
    (hcom : reg.commits = CommitsRes.ok n) (hn : n ≠ 0)
    (hes : reg.contents = ListingRes.ok es) (hfs : reg.ibcContents = ListingRes.ok fs) :
    Pull reg now h = pullAfterListings reg now
      (chainLoop reg (chainsFrom es)
        {h with chains := chainsFrom es, paths := pathsFrom fs}
        [Fetch.commits, Fetch.contents, Fetch.ibcContents]) := by
  unfold Pull getChains getPaths
  rw [hcom, hes, hfs]
  simp [hn]

/-! ## Claim C8: staleness short-circuit -/

/-- **C8.** A pass whose commit-history query returns an empty list
performs zero document fetches and leaves every component of the
snapshot unchanged, recording only the attempt time as the new
last-updated timestamp before terminating. -/
theorem pull_staleness_short_circuit (reg : Registry) (now : Nat) (h : Handler)
    (hcom : reg.commits = CommitsRes.ok 0) :
    Pull reg now h = ⟨{h with lastUpdated := now}, [Fetch.commits], RunRes.success⟩
    ∧ (Pull reg now h).trace.countP (fun f => f.isDocFetch) = 0 := by
  have h1 : Pull reg now h
      = ⟨{h with lastUpdated := now}, [Fetch.commits], RunRes.success⟩ := by
    unfold Pull
    rw [hcom]
    rfl
  exact ⟨h1, by rw [h1]; rfl⟩

/-- Instance of C8: no commits, the pass only re-stamps the clock. -/
theorem pull_staleness_short_circuit_witness :
    Pull regEmpty 7 hPrev = ⟨{hPrev with lastUpdated := 7}, [Fetch.commits], RunRes.success⟩ :=
  (pull_staleness_short_circuit regEmpty 7 hPrev (by decide)).1

/-! ## Claim C1: abort on a hard document failure -/

/-- **C1 counterexample.** A pass in which the chain document fetch for
the freshly discovered chain `foo` hard-fails does abort with an error,
but the previously published snapshot is *not* left as it was: chain
discovery has already replaced the published chain-name list in place
(`["oldchain"]` became `["foo"]`) before the failing fetch. -/
theorem pull_abort_mutates_counterexample :
    (Pull regFail 5 hPrev).res = RunRes.failure
    ∧ hPrev.chains = ["oldchain"]
    ∧ (Pull regFail 5 hPrev).state.chains = ["foo"]
    ∧ (Pull regFail 5 hPrev).state.chains ≠ hPrev.chains := by decide

/-- **C1 (amended).** For every pass in which some chain, asset-list,
or path document fetch is performed and returns a non-404 failure or
fails to parse (the commit check and both listings succeeding; a
failing path-document fetch is performed exactly when every discovered
path name before it stepped cleanly), the pass aborts with an error and
the last-updated timestamp is left unchanged; the rest of the
previously published snapshot is however *not* rolled back: updates
written before the failing fetch persist, as the counterexample
shows. -/
theorem pull_abort_on_document_failure (reg : Registry) (now n : Nat) (h : Handler)
    (es fs : List DirEntry)
    (hcom : reg.commits = CommitsRes.ok n) (hn : n ≠ 0)
    (hes : reg.contents = ListingRes.ok es) (hfs : reg.ibcContents = ListingRes.ok fs)
    (hfail :
      (∃ c ∈ chainsFrom es, reg.chainDoc c = DocRes.failed ∨ reg.assetDoc c = DocRes.failed)
      ∨ ((∀ c ∈ chainsFrom es, reg.chainDoc c ≠ DocRes.failed ∧ reg.assetDoc c ≠ DocRes.failed)
          ∧ (∃ pre p rest, pathsFrom fs = pre ++ p :: rest
              ∧ (∀ q ∈ pre, pathStepOk reg q)
              ∧ pathFailsAt reg p))) :
    (Pull reg now h).res = RunRes.failure
    ∧ (Pull reg now h).state.lastUpdated = h.lastUpdated := by
  rcases hfail with ⟨c, hc, hcf⟩ | ⟨hok, pre, p, rest, hdec, hpre, hfailp⟩
  · rw [Pull_eq_pullAfterListings reg now n h es fs hcom hn hes hfs]
    have hfields := chainLoop_state_fields reg (chainsFrom es)
        {h with chains := chainsFrom es, paths := pathsFrom fs}
        [Fetch.commits, Fetch.contents, Fetch.ibcContents]
    have hres := chainLoop_fails reg (chainsFrom es) c hc hcf
        {h with chains := chainsFrom es, paths := pathsFrom fs}
        [Fetch.commits, Fetch.contents, Fetch.ibcContents]
    rw [pullAfterListings_of_fail reg now _ hres]
    exact ⟨rfl, hfields.1⟩
  · rw [Pull_eq_pullAfterListings reg now n h es fs hcom hn hes hfs, hdec]
    have hfields := chainLoop_state_fields reg (chainsFrom es)
        {h with chains := chainsFrom es, paths := pre ++ p :: rest}
        [Fetch.commits, Fetch.contents, Fetch.ibcContents]
    have hlu : (chainLoop reg (chainsFrom es)
        {h with chains := chainsFrom es, paths := pre ++ p :: rest}
        [Fetch.commits, Fetch.contents, Fetch.ibcContents]).state.lastUpdated
        = h.lastUpdated := hfields.1
    have hpaths : (chainLoop reg (chainsFrom es)
        {h with chains := chainsFrom es, paths := pre ++ p :: rest}
        [Fetch.commits, Fetch.contents, Fetch.ibcContents]).state.paths
        = pre ++ p :: rest := hfields.2
    have hres := chainLoop_all_ok reg (chainsFrom es) hok
        {h with chains := chainsFrom es, paths := pre ++ p :: rest}
        [Fetch.commits, Fetch.contents, Fetch.ibcContents]
    rw [pullAfterListings_of_success reg now _ hres, hpaths]
    have hpl := pathLoop_fails reg pre p rest hpre hfailp
        (chainLoop reg (chainsFrom es)
          {h with chains := chainsFrom es, paths := pre ++ p :: rest}
          [Fetch.commits, Fetch.contents, Fetch.ibcContents]).state
        (chainLoop reg (chainsFrom es)
          {h with chains := chainsFrom es, paths := pre ++ p :: rest}
          [Fetch.commits, Fetch.contents, Fetch.ibcContents]).trace
    rw [pullFinish_of_fail now _ hpl]
    refine ⟨rfl, ?_⟩
    rw [pathLoop_lastUpdated]
    exact hlu

/-- Instance of C1 (amended): the failing chain-document pass of the
counterexample aborts with an error and keeps its timestamp. -/
theorem pull_abort_on_document_failure_witness :
    (Pull regFail 5 hPrev).res = RunRes.failure
    ∧ (Pull regFail 5 hPrev).state.lastUpdated = hPrev.lastUpdated :=
  pull_abort_on_document_failure regFail 5 1 hPrev [⟨"foo", "dir"⟩] []
    (by decide) (by decide) (by decide) (by decide)
    (Or.inl ⟨"foo", by decide, Or.inl (by decide)⟩)
